import Mathlib

/-!
Verification of the Camelottie frame-selection, geometry-resolution and
Lottie-document-assembly logic (`src/Camelottie.js`, `createLottieAnimation`).

The JavaScript loop accumulates a floating-point position; here the position
is modelled with exact rationals (the accumulated position after `k` steps is
exactly `k * skipRatio`).  All machine arithmetic in the modelled code paths
is integer arithmetic on values far below any overflow boundary, and the
spec's algorithm is stated over exact reals, so the rational model is the
faithful shallow embedding of the algorithm.
-/

namespace Camelottie

/-- A selected frame, as pushed by the selection loop:
`selectedFrames.push({originalIndex: frameIndex, lottieIndex: selectedFrames.length})`
(the `file` field of the source object is `files[frameIndex]`, recoverable
from `originalIndex`, and is not duplicated here). -/
structure SelectedFrame where
  originalIndex : ℕ
  lottieIndex : ℕ
deriving DecidableEq, Repr

/-- The selection loop of `createLottieAnimation`:
`for (let i = 0; i < files.length; i += frameSkipRatio) { const frameIndex =
Math.floor(i); if (frameIndex < files.length) { selectedFrames.push(...) } }`.
`n` is `files.length`, `r` the skip ratio, `i` the running position and `len`
the current `selectedFrames.length`.  The source loop terminates exactly when
`0 < r`; the `0 < r` conjunct below makes the model total by returning the
junk value `[]` where the source loop would not terminate. -/
def selectAux (n : ℕ) (r : ℚ) (i : ℚ) (len : ℕ) : List SelectedFrame :=
  if h : 0 < r ∧ i < (n : ℚ) then
    if (⌊i⌋).toNat < n then
      ⟨(⌊i⌋).toNat, len⟩ :: selectAux n r (i + r) (len + 1)
    else
      selectAux n r (i + r) len
  else
    []
termination_by (⌈((n : ℚ) - i) / r⌉).toNat
decreasing_by
  all_goals
    have hr : 0 < r := h.1
    have hi : i < (n : ℚ) := h.2
    have key : ((n : ℚ) - (i + r)) / r = ((n : ℚ) - i) / r - 1 := by
      field_simp
      ring
    rw [key, Int.ceil_sub_one]
    have hpos : 0 < ⌈((n : ℚ) - i) / r⌉ :=
      Int.ceil_pos.mpr (div_pos (by linarith) hr)
    omega

/-- Frame selection: the loop started at position `0.0` with an empty
`selectedFrames` array. -/
def selectFrames (n : ℕ) (r : ℚ) : List SelectedFrame :=
  selectAux n r 0 0

/-- Number of loop iterations performed by the selection loop (in exact
arithmetic): the least `k` with `k * r ≥ n`, i.e. `⌈n / r⌉`. -/
def numSelected (n : ℕ) (r : ℚ) : ℕ :=
  (⌈(n : ℚ) / r⌉).toNat

/-- The original index emitted at loop iteration `k`: `Math.floor(i)` with
the exact position `i = k * r`. -/
def selIdx (r : ℚ) (k : ℕ) : ℕ :=
  (⌊(k : ℚ) * r⌋).toNat

lemma lt_numSelected_iff (n : ℕ) (r : ℚ) (hr : 0 < r) (k : ℕ) :
    k < numSelected n r ↔ (k : ℚ) * r < (n : ℚ) := by
  unfold numSelected
  have h1 : k < (⌈(n : ℚ) / r⌉).toNat ↔ (k : ℤ) < ⌈(n : ℚ) / r⌉ := by omega
  rw [h1, Int.lt_ceil]
  push_cast
  exact lt_div_iff₀ hr

lemma selIdx_lt (n : ℕ) (r : ℚ) (hr : 0 < r) (k : ℕ)
    (hk : k < numSelected n r) : (⌊(k : ℚ) * r⌋).toNat < n := by
  have h1 : (k : ℚ) * r < (n : ℚ) := (lt_numSelected_iff n r hr k).mp hk
  have h2 : ⌊(k : ℚ) * r⌋ < (n : ℤ) := by
    rw [Int.floor_lt]
    push_cast
    exact h1
  have h3 : (0 : ℤ) ≤ ⌊(k : ℚ) * r⌋ := Int.floor_nonneg.mpr (by positivity)
  omega

/-- Characterization of the selection loop: starting at position `k * r` with
`k` frames already selected, the loop emits the remaining
`numSelected n r - k` frames. -/
lemma selectAux_spec (n : ℕ) (r : ℚ) (hr : 0 < r) :
    ∀ m k, numSelected n r - k = m →
      selectAux n r ((k : ℚ) * r) k
        = (List.range m).map
            (fun j => ⟨(⌊((k + j : ℕ) : ℚ) * r⌋).toNat, k + j⟩) := by
  intro m
  induction m with
  | zero =>
    intro k hk
    have hK : numSelected n r ≤ k := by omega
    have hcond : ¬ ((k : ℚ) * r < (n : ℚ)) := by
      rw [← lt_numSelected_iff n r hr k]
      omega
    rw [selectAux, dif_neg]
    · simp
    · rintro ⟨-, hlt⟩
      exact hcond hlt
  | succ m ih =>
    intro k hk
    have hklt : k < numSelected n r := by omega
    have hcond : (k : ℚ) * r < (n : ℚ) := (lt_numSelected_iff n r hr k).mp hklt
    have hfloor : (⌊(k : ℚ) * r⌋).toNat < n := selIdx_lt n r hr k hklt
    rw [selectAux, dif_pos ⟨hr, hcond⟩, if_pos hfloor]
    have hstep : (k : ℚ) * r + r = ((k + 1 : ℕ) : ℚ) * r := by
      push_cast
      ring
    rw [hstep, ih (k + 1) (by omega)]
    rw [List.range_succ_eq_map, List.map_cons, List.map_map]
    congr 1
    apply List.map_congr_left
    intro j hj
    simp only [Function.comp_apply, SelectedFrame.mk.injEq]
    push_cast
    refine ⟨?_, by omega⟩
    have harg : ((k : ℚ) + 1 + (j : ℚ)) * r = ((k : ℚ) + ((j : ℚ) + 1)) * r := by
      ring
    rw [harg]

/-- Closed form of the selection loop: the frame at output position `k` has
original index `⌊k * r⌋`, and `⌈n / r⌉` frames are selected. -/
lemma selectFrames_eq (n : ℕ) (r : ℚ) (hr : 0 < r) :
    selectFrames n r
      = (List.range (numSelected n r)).map
          (fun k => ⟨(⌊(k : ℚ) * r⌋).toNat, k⟩) := by
  have h0 : ((0 : ℕ) : ℚ) * r = 0 := by norm_num
  have h := selectAux_spec n r hr (numSelected n r) 0 (by omega)
  rw [h0] at h
  rw [selectFrames, h]
  apply List.map_congr_left
  intro j hj
  simp

lemma selectFrames_map_originalIndex (n : ℕ) (r : ℚ) (hr : 0 < r) :
    (selectFrames n r).map SelectedFrame.originalIndex
      = (List.range (numSelected n r)).map (selIdx r) := by
  rw [selectFrames_eq n r hr, List.map_map]
  rfl

lemma selectFrames_map_lottieIndex (n : ℕ) (r : ℚ) (hr : 0 < r) :
    (selectFrames n r).map SelectedFrame.lottieIndex
      = List.range (numSelected n r) := by
  rw [selectFrames_eq n r hr, List.map_map]
  have h : (SelectedFrame.lottieIndex ∘
      fun k : ℕ => (⟨(⌊(k : ℚ) * r⌋).toNat, k⟩ : SelectedFrame)) = id := rfl
  rw [h, List.map_id]

lemma selectFrames_length (n : ℕ) (r : ℚ) (hr : 0 < r) :
    (selectFrames n r).length = numSelected n r := by
  rw [selectFrames_eq n r hr]
  simp

lemma selectFrames_originalIndex_lt (n : ℕ) (r : ℚ) (hr : 0 < r) :
    ∀ f ∈ selectFrames n r, f.originalIndex < n := by
  intro f hf
  rw [selectFrames_eq n r hr] at hf
  rcases List.mem_map.mp hf with ⟨k, hk, rfl⟩
  exact selIdx_lt n r hr k (List.mem_range.mp hk)

lemma selIdx_strictMono (r : ℚ) (hr : 1 ≤ r) {a b : ℕ} (hab : a < b) :
    selIdx r a < selIdx r b := by
  unfold selIdx
  have hr0 : (0 : ℚ) < r := lt_of_lt_of_le one_pos hr
  have h1 : (a : ℚ) * r + 1 ≤ (b : ℚ) * r := by
    have hba : (a : ℚ) + 1 ≤ (b : ℚ) := by exact_mod_cast hab
    nlinarith
  have h2 : ⌊(a : ℚ) * r⌋ + 1 ≤ ⌊(b : ℚ) * r⌋ := by
    rw [← Int.floor_add_one]
    exact Int.floor_le_floor h1
  have h3 : (0 : ℤ) ≤ ⌊(a : ℚ) * r⌋ := Int.floor_nonneg.mpr (by positivity)
  omega

lemma selIdx_mono (r : ℚ) (hr : 0 ≤ r) {a b : ℕ} (hab : a ≤ b) :
    selIdx r a ≤ selIdx r b := by
  unfold selIdx
  have h1 : (a : ℚ) * r ≤ (b : ℚ) * r := by
    have hba : (a : ℚ) ≤ (b : ℚ) := by exact_mod_cast hab
    exact mul_le_mul_of_nonneg_right hba hr
  have h2 : ⌊(a : ℚ) * r⌋ ≤ ⌊(b : ℚ) * r⌋ := Int.floor_le_floor h1
  omega

lemma selIdx_two (k : ℕ) : selIdx 2 k = 2 * k := by
  unfold selIdx
  have h : (k : ℚ) * 2 = ((2 * k : ℕ) : ℚ) := by
    push_cast
    ring
  rw [h, Int.floor_natCast]
  omega

lemma numSelected_121_2 : numSelected 121 (30 / 15) = 61 := by
  have h : ((121 : ℕ) : ℚ) / (30 / 15) = 121 / 2 := by norm_num
  rw [numSelected, h]
  rw [show (⌈(121 : ℚ) / 2⌉ : ℤ) = 61 from by rw [Int.ceil_eq_iff] <;> norm_num]
  rfl

/-- C1: for `frameCount ≥ 1` and `skipRatio ≥ 1` the selector emits the
indices `⌊k * skipRatio⌋` for `k = 0, 1, 2, ...` exactly while the position
`k * skipRatio` is below `frameCount`; the number of selected frames is
exactly `⌈frameCount / skipRatio⌉` (hence within ±1 of it); and for
`frameCount = 121`, `originalFrameRate = 30`, `targetFrameRate = 15` it
selects exactly 61 frames with original indices `0, 2, 4, ..., 120`. -/
theorem frame_selection_count (n : ℕ) (r : ℚ) (hn : 1 ≤ n) (hr : 1 ≤ r) :
    (selectFrames n r).map SelectedFrame.originalIndex
        = (List.range (numSelected n r)).map (selIdx r)
    ∧ (∀ k : ℕ, k < numSelected n r ↔ (k : ℚ) * r < (n : ℚ))
    ∧ (((selectFrames n r).length : ℤ) - ⌈(n : ℚ) / r⌉).natAbs ≤ 1
    ∧ (selectFrames 121 (30 / 15)).map SelectedFrame.originalIndex
        = (List.range 61).map (fun k => 2 * k)
    ∧ (selectFrames 121 (30 / 15)).length = 61 := by
  have hr0 : (0 : ℚ) < r := lt_of_lt_of_le one_pos hr
  have h2 : (0 : ℚ) < 30 / 15 := by norm_num
  refine ⟨selectFrames_map_originalIndex n r hr0,
    fun k => lt_numSelected_iff n r hr0 k, ?_, ?_, ?_⟩
  · rw [selectFrames_length n r hr0, numSelected]
    have hc : (0 : ℤ) ≤ ⌈(n : ℚ) / r⌉ := Int.ceil_nonneg (by positivity)
    omega
  · rw [selectFrames_map_originalIndex 121 (30 / 15) h2, numSelected_121_2]
    apply List.map_congr_left
    intro k hk
    have h3 : (30 : ℚ) / 15 = 2 := by norm_num
    rw [h3, selIdx_two]
  · rw [selectFrames_length 121 (30 / 15) h2, numSelected_121_2]

/-- C1 witness: the hypotheses hold at `frameCount = 121`,
`skipRatio = 30/15`, and 61 frames are selected there. -/
theorem frame_selection_count_witness :
    (1 : ℕ) ≤ 121 ∧ (1 : ℚ) ≤ 30 / 15
      ∧ (selectFrames 121 (30 / 15)).length = 61 :=
  ⟨by norm_num, by norm_num,
    (frame_selection_count 121 (30 / 15) (by norm_num) (by norm_num)).2.2.2.2⟩

/-- C2: for `frameCount ≥ 1` and `skipRatio ≥ 1` the first selected original
index is 0, the original indices are strictly increasing and lie in
`[0, frameCount)` (0 ≤ is automatic as the model uses ℕ), and the assigned
`lottieIndex` values form the contiguous range `[0, selectedCount)`. -/
theorem frame_selection_ordering (n : ℕ) (r : ℚ) (hn : 1 ≤ n) (hr : 1 ≤ r) :
    ((selectFrames n r).map SelectedFrame.originalIndex).head? = some 0
    ∧ ((selectFrames n r).map SelectedFrame.originalIndex).Pairwise (· < ·)
    ∧ (∀ f ∈ selectFrames n r, f.originalIndex < n)
    ∧ (selectFrames n r).map SelectedFrame.lottieIndex
        = List.range (selectFrames n r).length := by
  have hr0 : (0 : ℚ) < r := lt_of_lt_of_le one_pos hr
  have hKpos : 0 < numSelected n r := by
    rw [lt_numSelected_iff n r hr0 0]
    push_cast
    simp
    exact_mod_cast hn
  refine ⟨?_, ?_, selectFrames_originalIndex_lt n r hr0, ?_⟩
  · rw [selectFrames_map_originalIndex n r hr0]
    obtain ⟨m, hm⟩ : ∃ m, numSelected n r = m + 1 :=
      ⟨numSelected n r - 1, by omega⟩
    rw [hm, List.range_succ_eq_map]
    simp [selIdx]
  · rw [selectFrames_map_originalIndex n r hr0, List.pairwise_map]
    exact (List.pairwise_lt_range _).imp (fun hab => selIdx_strictMono r hr hab)
  · rw [selectFrames_map_lottieIndex n r hr0, selectFrames_length n r hr0]

/-- C2 witness: instantiation at `frameCount = 121`, `skipRatio = 2`. -/
theorem frame_selection_ordering_witness :
    (1 : ℕ) ≤ 121 ∧ (1 : ℚ) ≤ 2
      ∧ (selectFrames 121 2).map SelectedFrame.lottieIndex
          = List.range (selectFrames 121 2).length :=
  ⟨by norm_num, by norm_num,
    (frame_selection_ordering 121 2 (by norm_num) (by norm_num)).2.2.2⟩

/-- C3 counterexample: at `frameCount = 0` (with the default rates
`originalFrameRate = 30`, `targetFrameRate = 15`) the selection loop does not
fail at all — the source has no `InvalidConfiguration` check and no error
path in the selection loop (the loop body simply never runs) — it proceeds
and returns the normal, empty selection. -/
theorem selector_zero_frames_counterexample :
    selectFrames 0 (30 / 15) = [] := by
  have h : (0 : ℚ) < 30 / 15 := by norm_num
  rw [selectFrames_eq 0 (30 / 15) h]
  simp [numSelected]

/-- C3 amended: when `frameCount = 0` the selector proceeds normally and
emits the empty selection for every skip ratio; the code performs no
validation of `frameCount` or of the frame rates, so no
`InvalidConfiguration` error is ever produced (non-positive rates make the
source loop non-terminating instead, the regime excluded from this model). -/
theorem selector_zero_frames_proceeds (r : ℚ) : selectFrames 0 r = [] := by
  rw [selectFrames, selectAux, dif_neg]
  rintro ⟨-, h0⟩
  norm_num at h0

/-- C9 (implicit): for every `frameCount` and every positive skip ratio,
including fractional ratios below 1, each selected frame's `originalIndex`
is in `[0, frameCount)`, so indexing the frame file list with it always
succeeds. -/
theorem selection_index_bounds (n : ℕ) (r : ℚ) (hr : 0 < r) :
    (∀ f ∈ selectFrames n r, f.originalIndex < n)
    ∧ ∀ (files : List String), files.length = n →
        ∀ f ∈ selectFrames n r, ∃ file, files[f.originalIndex]? = some file := by
  refine ⟨selectFrames_originalIndex_lt n r hr, ?_⟩
  intro files hlen f hf
  have hbound : f.originalIndex < files.length := by
    rw [hlen]
    exact selectFrames_originalIndex_lt n r hr f hf
  exact ⟨files[f.originalIndex], List.getElem?_eq_getElem hbound⟩

/-- C9 witness: instantiation at `frameCount = 5`, `skipRatio = 1/2`. -/
theorem selection_index_bounds_witness :
    (0 : ℚ) < 1 / 2
      ∧ ∀ f ∈ selectFrames 5 (1 / 2), f.originalIndex < 5 :=
  ⟨by norm_num, (selection_index_bounds 5 (1 / 2) (by norm_num)).1⟩

/-- C10 (implicit): for `frameCount ≥ 1` and `0 < skipRatio < 1` the
selector deduplicates nothing: the emitted original indices are
non-decreasing, contain duplicates (the list is not `Nodup`), cover every
index of `[0, frameCount)` at least once, and the output length is exactly
`⌈frameCount / skipRatio⌉`, which strictly exceeds `frameCount`. -/
theorem sub_one_skip_behavior (n : ℕ) (r : ℚ) (hn : 1 ≤ n) (hr0 : 0 < r)
    (hr1 : r < 1) :
    ((selectFrames n r).map SelectedFrame.originalIndex).Pairwise (· ≤ ·)
    ∧ (∀ j, j < n → j ∈ (selectFrames n r).map SelectedFrame.originalIndex)
    ∧ (selectFrames n r).length = numSelected n r
    ∧ n < (selectFrames n r).length
    ∧ ¬ ((selectFrames n r).map SelectedFrame.originalIndex).Nodup := by
  have hnpos : (0 : ℚ) < (n : ℚ) := by
    have : (1 : ℚ) ≤ (n : ℚ) := by exact_mod_cast hn
    linarith
  have hKn : n < numSelected n r := by
    rw [lt_numSelected_iff n r hr0 n]
    calc (n : ℚ) * r < (n : ℚ) * 1 := mul_lt_mul_of_pos_left hr1 hnpos
    _ = (n : ℚ) := mul_one _
  refine ⟨?_, ?_, selectFrames_length n r hr0, ?_, ?_⟩
  · rw [selectFrames_map_originalIndex n r hr0, List.pairwise_map]
    exact (List.pairwise_lt_range _).imp
      (fun hab => selIdx_mono r hr0.le (le_of_lt hab))
  · intro j hj
    rw [selectFrames_map_originalIndex n r hr0]
    have hc0 : (0 : ℤ) ≤ ⌈(j : ℚ) / r⌉ := Int.ceil_nonneg (by positivity)
    have hcast : (((⌈(j : ℚ) / r⌉).toNat : ℕ) : ℚ) = ((⌈(j : ℚ) / r⌉ : ℤ) : ℚ) := by
      exact_mod_cast congrArg (fun z : ℤ => (z : ℚ)) (Int.toNat_of_nonneg hc0)
    have hle : (j : ℚ) ≤ ((⌈(j : ℚ) / r⌉ : ℤ) : ℚ) * r := by
      have h1 : (j : ℚ) / r ≤ ((⌈(j : ℚ) / r⌉ : ℤ) : ℚ) := Int.le_ceil _
      have h2 : (j : ℚ) / r * r ≤ ((⌈(j : ℚ) / r⌉ : ℤ) : ℚ) * r :=
        mul_le_mul_of_nonneg_right h1 hr0.le
      calc (j : ℚ) = (j : ℚ) / r * r := by field_simp
      _ ≤ _ := h2
    have hlt : ((⌈(j : ℚ) / r⌉ : ℤ) : ℚ) * r < (j : ℚ) + 1 := by
      have h1 : ((⌈(j : ℚ) / r⌉ : ℤ) : ℚ) < (j : ℚ) / r + 1 :=
        Int.ceil_lt_add_one _
      have h2 : ((⌈(j : ℚ) / r⌉ : ℤ) : ℚ) * r < ((j : ℚ) / r + 1) * r :=
        mul_lt_mul_of_pos_right h1 hr0
      have h3 : ((j : ℚ) / r + 1) * r = (j : ℚ) + r := by
        field_simp
      rw [h3] at h2
      linarith
    have hfloor : ⌊(((⌈(j : ℚ) / r⌉).toNat : ℕ) : ℚ) * r⌋ = (j : ℤ) := by
      rw [hcast, Int.floor_eq_iff]
      constructor
      · push_cast
        exact hle
      · push_cast
        exact hlt
    have hkK : (⌈(j : ℚ) / r⌉).toNat < numSelected n r := by
      rw [lt_numSelected_iff n r hr0]
      rw [hcast]
      have hjn : (j : ℚ) + 1 ≤ (n : ℚ) := by exact_mod_cast hj
      linarith
    refine List.mem_map.mpr ⟨(⌈(j : ℚ) / r⌉).toNat, List.mem_range.mpr hkK, ?_⟩
    unfold selIdx
    rw [hfloor]
    omega
  · rw [selectFrames_length n r hr0]
    exact hKn
  · intro hnd
    have hlen : ((selectFrames n r).map SelectedFrame.originalIndex).length
        = numSelected n r := by
      rw [List.length_map, selectFrames_length n r hr0]
    have hsub : ((selectFrames n r).map SelectedFrame.originalIndex).toFinset
        ⊆ Finset.range n := by
      intro x hx
      rw [List.mem_toFinset] at hx
      rw [Finset.mem_range]
      rcases List.mem_map.mp hx with ⟨f, hf, rfl⟩
      exact selectFrames_originalIndex_lt n r hr0 f hf
    have hcard := List.toFinset_card_of_nodup hnd
    have hle2 := Finset.card_le_card hsub
    rw [Finset.card_range, hcard, hlen] at hle2
    omega

/-- C10 witness: instantiation at `frameCount = 5`, `skipRatio = 1/2`
(10 output frames from 5 input frames). -/
theorem sub_one_skip_behavior_witness :
    (1 : ℕ) ≤ 5 ∧ (0 : ℚ) < 1 / 2 ∧ (1 : ℚ) / 2 < 1
      ∧ 5 < (selectFrames 5 (1 / 2)).length :=
  ⟨by norm_num, by norm_num, by norm_num,
    (sub_one_skip_behavior 5 (1 / 2) (by norm_num) (by norm_num)
      (by norm_num)).2.2.2.1⟩

/-! Geometry resolution (crop then scale), `createLottieAnimation` lines
292–342.  The source reads optional numeric settings (`global.cropWidth`,
`global.lottieWidth`, ...) and branches on JavaScript truthiness, under
which both `null`/absent and `0` are falsy. -/

/-- JavaScript truthiness of an optional numeric setting: `null` (modelled
as `none`) and `0` are falsy, every other number is truthy. -/
def jsTruthy : Option ℤ → Prop
  | none => False
  | some v => v ≠ 0

instance (o : Option ℤ) : Decidable (jsTruthy o) :=
  match o with
  | none => inferInstanceAs (Decidable False)
  | some v => inferInstanceAs (Decidable (v ≠ 0))

/-- JavaScript `o || d` for an optional numeric `o`: the value of `o` when
truthy, otherwise the default `d`. -/
def jsOr (o : Option ℤ) (d : ℤ) : ℤ :=
  if jsTruthy o then o.getD 0 else d

/-- JavaScript `Math.round` (round half toward positive infinity). -/
def jsRound (q : ℚ) : ℤ :=
  ⌊q + 1 / 2⌋

/-- The crop rectangle computed by lines 292–317: `croppedWidth`,
`croppedHeight`, `cropOffsetX`, `cropOffsetY`. -/
structure CropSpec where
  croppedWidth : ℤ
  croppedHeight : ℤ
  cropOffsetX : ℤ
  cropOffsetY : ℤ
deriving DecidableEq, Repr

/-- Crop resolution (lines 298–314): when a crop dimension is requested,
`croppedWidth = min(cropWidth || sourceWidth, sourceWidth)` (same for
height) and, when cropping from the center,
`cropOffsetX = Math.floor((sourceWidth - croppedWidth) / 2)` (same for Y);
with no crop requested the source dimensions are kept with zero offsets. -/
def resolveCrop (sourceWidth sourceHeight : ℤ) (cropWidth cropHeight : Option ℤ)
    (cropFromCenter : Bool) : CropSpec :=
  if jsTruthy cropWidth ∨ jsTruthy cropHeight then
    if cropFromCenter then
      { croppedWidth := min (jsOr cropWidth sourceWidth) sourceWidth,
        croppedHeight := min (jsOr cropHeight sourceHeight) sourceHeight,
        cropOffsetX :=
          ⌊((sourceWidth : ℚ) - ((min (jsOr cropWidth sourceWidth) sourceWidth : ℤ) : ℚ)) / 2⌋,
        cropOffsetY :=
          ⌊((sourceHeight : ℚ) - ((min (jsOr cropHeight sourceHeight) sourceHeight : ℤ) : ℚ)) / 2⌋ }
    else
      { croppedWidth := min (jsOr cropWidth sourceWidth) sourceWidth,
        croppedHeight := min (jsOr cropHeight sourceHeight) sourceHeight,
        cropOffsetX := 0,
        cropOffsetY := 0 }
  else
    { croppedWidth := sourceWidth,
      croppedHeight := sourceHeight,
      cropOffsetX := 0,
      cropOffsetY := 0 }

/-- Scale resolution (lines 319–342), applied to the cropped dimensions:
both target dimensions truthy → both verbatim; only width → width plus
aspect-preserving rounded height (or the cropped height when
`maintainAspectRatio` is off); only height → symmetric; neither → the
cropped dimensions. -/
def resolveScale (croppedWidth croppedHeight : ℤ)
    (lottieWidth lottieHeight : Option ℤ) (maintainAspectRatio : Bool) :
    ℤ × ℤ :=
  if jsTruthy lottieWidth ∧ jsTruthy lottieHeight then
    (jsOr lottieWidth 0, jsOr lottieHeight 0)
  else if jsTruthy lottieWidth ∧ ¬ jsTruthy lottieHeight then
    (jsOr lottieWidth 0,
      if maintainAspectRatio then
        jsRound (((jsOr lottieWidth 0 : ℤ) : ℚ) / (croppedWidth : ℚ)
          * (croppedHeight : ℚ))
      else croppedHeight)
  else if ¬ jsTruthy lottieWidth ∧ jsTruthy lottieHeight then
    (if maintainAspectRatio then
        jsRound (((jsOr lottieHeight 0 : ℤ) : ℚ) / (croppedHeight : ℚ)
          * (croppedWidth : ℚ))
      else croppedWidth,
      jsOr lottieHeight 0)
  else
    (croppedWidth, croppedHeight)

lemma centerOffset_bounds (s c : ℤ) (hc : c ≤ s) :
    0 ≤ ⌊((s : ℚ) - (c : ℚ)) / 2⌋ ∧ ⌊((s : ℚ) - (c : ℚ)) / 2⌋ + c ≤ s := by
  have hd : (0 : ℚ) ≤ (s : ℚ) - (c : ℚ) := by
    have h : (c : ℚ) ≤ (s : ℚ) := by exact_mod_cast hc
    linarith
  constructor
  · exact Int.floor_nonneg.mpr (div_nonneg hd (by norm_num))
  · have h1 : ((⌊((s : ℚ) - (c : ℚ)) / 2⌋ : ℤ) : ℚ) ≤ ((s : ℚ) - (c : ℚ)) / 2 :=
      Int.floor_le _
    have h2 : ((s : ℚ) - (c : ℚ)) / 2 ≤ (s : ℚ) - (c : ℚ) := by linarith
    have h4 : (⌊((s : ℚ) - (c : ℚ)) / 2⌋ : ℤ) ≤ s - c := by
      exact_mod_cast le_trans h1 h2
    omega

/-- C4: with at least one crop dimension present,
`croppedWidth = min(requested-or-source, source)` (symmetric for height),
and with a `Center` anchor the offsets are
`floor((source - cropped) / 2)`; source 600×800 with center crop 300×400
yields offsets (150, 200), and a requested width of 900 against source
width 600 clamps to 600 with zero X offset. -/
theorem crop_resolution (sw sh : ℤ) (hsw : 0 < sw) (hsh : 0 < sh)
    (cw ch : Option ℤ) (ctr : Bool)
    (hpresent : jsTruthy cw ∨ jsTruthy ch) :
    (resolveCrop sw sh cw ch ctr).croppedWidth = min (jsOr cw sw) sw
    ∧ (resolveCrop sw sh cw ch ctr).croppedHeight = min (jsOr ch sh) sh
    ∧ (ctr = true →
        (resolveCrop sw sh cw ch ctr).cropOffsetX
            = ⌊((sw : ℚ) - ((min (jsOr cw sw) sw : ℤ) : ℚ)) / 2⌋
        ∧ (resolveCrop sw sh cw ch ctr).cropOffsetY
            = ⌊((sh : ℚ) - ((min (jsOr ch sh) sh : ℤ) : ℚ)) / 2⌋)
    ∧ resolveCrop 600 800 (some 300) (some 400) true
        = ⟨300, 400, 150, 200⟩
    ∧ (resolveCrop 600 800 (some 900) none true).croppedWidth = 600
    ∧ (resolveCrop 600 800 (some 900) none true).cropOffsetX = 0 := by
  have hc1 : jsTruthy (some (300 : ℤ)) ∨ jsTruthy (some (400 : ℤ)) := by
    left
    norm_num [jsTruthy]
  have hc2 : jsTruthy (some (900 : ℤ)) ∨ jsTruthy (none : Option ℤ) := by
    left
    norm_num [jsTruthy]
  have hj1 : jsOr (some (300 : ℤ)) 600 = 300 := by norm_num [jsOr, jsTruthy]
  have hj2 : jsOr (some (400 : ℤ)) 800 = 400 := by norm_num [jsOr, jsTruthy]
  have hj3 : jsOr (some (900 : ℤ)) 600 = 900 := by norm_num [jsOr, jsTruthy]
  have hj4 : jsOr (none : Option ℤ) 800 = 800 := by norm_num [jsOr, jsTruthy]
  refine ⟨?_, ?_, ?_, ?_, ?_, ?_⟩
  · rw [resolveCrop, if_pos hpresent]
    cases ctr <;> simp
  · rw [resolveCrop, if_pos hpresent]
    cases ctr <;> simp
  · intro hctr
    subst hctr
    rw [resolveCrop, if_pos hpresent, if_pos rfl]
    exact ⟨rfl, rfl⟩
  · rw [resolveCrop, if_pos hc1, if_pos rfl]
    rw [hj1, hj2]
    have hx : ⌊((600 : ℚ) - ((min (300 : ℤ) 600 : ℤ) : ℚ)) / 2⌋ = 150 := by
      norm_num
    have hy : ⌊((800 : ℚ) - ((min (400 : ℤ) 800 : ℤ) : ℚ)) / 2⌋ = 200 := by
      norm_num
    rw [CropSpec.mk.injEq]
    refine ⟨by norm_num, by norm_num, ?_, ?_⟩
    · push_cast
      norm_num
    · push_cast
      norm_num
  · rw [resolveCrop, if_pos hc2, if_pos rfl]
    rw [hj3]
    norm_num
  · rw [resolveCrop, if_pos hc2, if_pos rfl]
    rw [hj3]
    push_cast
    norm_num

/-- C4 witness: instantiation at source 600×800 with center crop 300×400. -/
theorem crop_resolution_witness :
    (0 : ℤ) < 600 ∧ (0 : ℤ) < 800
      ∧ resolveCrop 600 800 (some 300) (some 400) true
          = ⟨300, 400, 150, 200⟩ :=
  ⟨by norm_num, by norm_num,
    (crop_resolution 600 800 (by norm_num) (by norm_num) (some 300) (some 400)
      true (Or.inl (by norm_num [jsTruthy]))).2.2.2.1⟩

/-- C6: every resolved crop satisfies `0 ≤ cropOffsetX`,
`cropOffsetX + croppedWidth ≤ sourceWidth`, and the same for Y/height,
whenever the source dimensions are positive and any present crop dimensions
are positive. -/
theorem crop_containment (sw sh : ℤ) (hsw : 0 < sw) (hsh : 0 < sh)
    (cw ch : Option ℤ) (ctr : Bool)
    (hcw : ∀ v, cw = some v → 0 < v) (hch : ∀ v, ch = some v → 0 < v) :
    0 ≤ (resolveCrop sw sh cw ch ctr).cropOffsetX
    ∧ (resolveCrop sw sh cw ch ctr).cropOffsetX
        + (resolveCrop sw sh cw ch ctr).croppedWidth ≤ sw
    ∧ 0 ≤ (resolveCrop sw sh cw ch ctr).cropOffsetY
    ∧ (resolveCrop sw sh cw ch ctr).cropOffsetY
        + (resolveCrop sw sh cw ch ctr).croppedHeight ≤ sh := by
  rw [resolveCrop]
  split_ifs with hp hc
  · have hx := centerOffset_bounds sw (min (jsOr cw sw) sw) (min_le_right _ _)
    have hy := centerOffset_bounds sh (min (jsOr ch sh) sh) (min_le_right _ _)
    exact ⟨hx.1, hx.2, hy.1, hy.2⟩
  · refine ⟨le_refl 0, ?_, le_refl 0, ?_⟩
    · simpa using min_le_right (jsOr cw sw) sw
    · simpa using min_le_right (jsOr ch sh) sh
  · exact ⟨le_refl 0, by simp, le_refl 0, by simp⟩

/-- C6 witness: instantiation at source 600×800 with center crop 300×400. -/
theorem crop_containment_witness :
    (0 : ℤ) < 600 ∧ (0 : ℤ) < 800
      ∧ 0 ≤ (resolveCrop 600 800 (some 300) (some 400) true).cropOffsetX
      ∧ (resolveCrop 600 800 (some 300) (some 400) true).cropOffsetX
          + (resolveCrop 600 800 (some 300) (some 400) true).croppedWidth
          ≤ 600 :=
  ⟨by norm_num, by norm_num,
    (crop_containment 600 800 (by norm_num) (by norm_num) (some 300)
        (some 400) true
        (by rintro v h; cases h; norm_num)
        (by rintro v h; cases h; norm_num)).1,
    (crop_containment 600 800 (by norm_num) (by norm_num) (some 300)
        (some 400) true
        (by rintro v h; cases h; norm_num)
        (by rintro v h; cases h; norm_num)).2.1⟩

/-- C5: scale resolution on cropped dimensions: width-only with
`maintainAspectRatio` gives `round(width / croppedWidth * croppedHeight)`
for the height (symmetric for height-only); both given are taken verbatim;
neither given keeps the cropped dimensions; cropped 300×400 with width 200
yields 200×267. -/
theorem scale_resolution (cw ch : ℤ) (hcw : 0 < cw) (hch : 0 < ch) :
    (∀ w : ℤ, w ≠ 0 → ∀ lh : Option ℤ, ¬ jsTruthy lh →
        resolveScale cw ch (some w) lh true
          = (w, jsRound ((w : ℚ) / (cw : ℚ) * (ch : ℚ))))
    ∧ (∀ h : ℤ, h ≠ 0 → ∀ lw : Option ℤ, ¬ jsTruthy lw →
        resolveScale cw ch lw (some h) true
          = (jsRound ((h : ℚ) / (ch : ℚ) * (cw : ℚ)), h))
    ∧ (∀ w h : ℤ, w ≠ 0 → h ≠ 0 → ∀ mar : Bool,
        resolveScale cw ch (some w) (some h) mar = (w, h))
    ∧ (∀ lw lh : Option ℤ, ¬ jsTruthy lw → ¬ jsTruthy lh → ∀ mar : Bool,
        resolveScale cw ch lw lh mar = (cw, ch))
    ∧ resolveScale 300 400 (some 200) none true = (200, 267) := by
  refine ⟨?_, ?_, ?_, ?_, ?_⟩
  · intro w hw lh hlh
    have h1 : ¬ (jsTruthy (some w) ∧ jsTruthy lh) := by
      rintro ⟨-, hbad⟩
      exact hlh hbad
    have h2 : jsTruthy (some w) ∧ ¬ jsTruthy lh := ⟨hw, hlh⟩
    rw [resolveScale, if_neg h1, if_pos h2, if_pos rfl]
    have hj : jsOr (some w) 0 = w := by
      rw [jsOr, if_pos]
      · rfl
      · exact hw
    rw [hj]
  · intro h hh lw hlw
    have h1 : ¬ (jsTruthy lw ∧ jsTruthy (some h)) := by
      rintro ⟨hbad, -⟩
      exact hlw hbad
    have h2 : ¬ (jsTruthy lw ∧ ¬ jsTruthy (some h)) := by
      rintro ⟨hbad, -⟩
      exact hlw hbad
    have h3 : ¬ jsTruthy lw ∧ jsTruthy (some h) := ⟨hlw, hh⟩
    rw [resolveScale, if_neg h1, if_neg h2, if_pos h3, if_pos rfl]
    have hj : jsOr (some h) 0 = h := by
      rw [jsOr, if_pos]
      · rfl
      · exact hh
    rw [hj]
  · intro w h hw hh mar
    have h1 : jsTruthy (some w) ∧ jsTruthy (some h) := ⟨hw, hh⟩
    rw [resolveScale, if_pos h1]
    have hjw : jsOr (some w) 0 = w := by
      rw [jsOr, if_pos]
      · rfl
      · exact hw
    have hjh : jsOr (some h) 0 = h := by
      rw [jsOr, if_pos]
      · rfl
      · exact hh
    rw [hjw, hjh]
  · intro lw lh hlw hlh mar
    have h1 : ¬ (jsTruthy lw ∧ jsTruthy lh) := by
      rintro ⟨hbad, -⟩
      exact hlw hbad
    have h2 : ¬ (jsTruthy lw ∧ ¬ jsTruthy lh) := by
      rintro ⟨hbad, -⟩
      exact hlw hbad
    have h3 : ¬ (¬ jsTruthy lw ∧ jsTruthy lh) := by
      rintro ⟨-, hbad⟩
      exact hlh hbad
    rw [resolveScale, if_neg h1, if_neg h2, if_neg h3]
  · have h1 : ¬ (jsTruthy (some (200 : ℤ)) ∧ jsTruthy (none : Option ℤ)) := by
      rintro ⟨-, hbad⟩
      exact hbad
    have h2 : jsTruthy (some (200 : ℤ)) ∧ ¬ jsTruthy (none : Option ℤ) := by
      exact ⟨by norm_num [jsTruthy], fun hbad => hbad⟩
    rw [resolveScale, if_neg h1, if_pos h2, if_pos rfl]
    have hj : jsOr (some (200 : ℤ)) 0 = 200 := by norm_num [jsOr, jsTruthy]
    rw [hj, Prod.mk.injEq]
    constructor
    · rfl
    · rw [jsRound]
      push_cast
      norm_num

/-- C5 witness: instantiation at cropped 300×400. -/
theorem scale_resolution_witness :
    (0 : ℤ) < 300 ∧ (0 : ℤ) < 400
      ∧ resolveScale 300 400 (some 200) none true = (200, 267) :=
  ⟨by norm_num, by norm_num,
    (scale_resolution 300 400 (by norm_num) (by norm_num)).2.2.2.2⟩

/-! Document assembly (`createLottieAnimation` lines 347–463).  Asset ids
are the strings `image_<lottieIndex>`; proving that each layer's `refId`
matches exactly one asset id needs injectivity of the decimal rendering of
naturals, established below by a digit round trip. -/

/-- Numeric value of a decimal digit character (inverse of
`Nat.digitChar` on `0..9`). -/
def digitVal (c : Char) : ℕ :=
  c.toNat - 48

/-- Value of a most-significant-first decimal digit list. -/
def evalDigits (l : List Char) : ℕ :=
  l.foldl (fun acc c => 10 * acc + digitVal c) 0

/-- Decimal digit list of a natural number, most significant first
(structured restatement of `Nat.toDigitsCore` at base 10). -/
def natDigits (n : ℕ) : List Char :=
  if h : n < 10 then [Nat.digitChar n]
  else natDigits (n / 10) ++ [Nat.digitChar (n % 10)]
termination_by n
decreasing_by
  exact Nat.div_lt_self (by omega) (by omega)

lemma digitVal_digitChar : ∀ d, d < 10 → digitVal (Nat.digitChar d) = d := by
  decide

lemma toDigitsCore_eq :
    ∀ fuel n ds, n < fuel →
      Nat.toDigitsCore 10 fuel n ds = natDigits n ++ ds := by
  intro fuel
  induction fuel with
  | zero =>
    intro n ds h
    omega
  | succ f ih =>
    intro n ds h
    have hstep : Nat.toDigitsCore 10 (f + 1) n ds
        = if n / 10 = 0 then Nat.digitChar (n % 10) :: ds
          else Nat.toDigitsCore 10 f (n / 10) (Nat.digitChar (n % 10) :: ds) :=
      rfl
    by_cases h10 : n / 10 = 0
    · have hn10 : n < 10 := by omega
      rw [hstep, if_pos h10, natDigits, dif_pos hn10, Nat.mod_eq_of_lt hn10]
      rfl
    · rw [hstep, if_neg h10, ih (n / 10) _ (by omega)]
      conv_rhs => rw [natDigits]
      rw [dif_neg (show ¬ n < 10 by omega)]
      simp

lemma evalDigits_append (l : List Char) (c : Char) :
    evalDigits (l ++ [c]) = 10 * evalDigits l + digitVal c := by
  rw [evalDigits, evalDigits, List.foldl_append]
  rfl

lemma evalDigits_natDigits : ∀ n : ℕ, evalDigits (natDigits n) = n := by
  intro n
  induction n using Nat.strong_induction_on with
  | _ n ih =>
    rw [natDigits]
    by_cases h10 : n < 10
    · rw [dif_pos h10]
      show evalDigits [Nat.digitChar n] = n
      have h1 : evalDigits [Nat.digitChar n]
          = 10 * evalDigits [] + digitVal (Nat.digitChar n) :=
        evalDigits_append [] (Nat.digitChar n)
      rw [h1, digitVal_digitChar n h10]
      rw [show evalDigits [] = 0 from rfl]
      omega
    · rw [dif_neg h10]
      have hdiv : n / 10 < n := Nat.div_lt_self (by omega) (by omega)
      rw [evalDigits_append, ih (n / 10) hdiv,
        digitVal_digitChar (n % 10) (by omega)]
      omega

lemma reprNat_injective {m n : ℕ} (h : Nat.repr m = Nat.repr n) : m = n := by
  have hdata : Nat.toDigits 10 m = Nat.toDigits 10 n := by
    have h2 := congrArg String.data h
    simpa [Nat.repr, List.asString] using h2
  have hm : Nat.toDigits 10 m = natDigits m := by
    rw [Nat.toDigits, toDigitsCore_eq (m + 1) m [] (by omega)]
    simp
  have hn : Nat.toDigits 10 n = natDigits n := by
    rw [Nat.toDigits, toDigitsCore_eq (n + 1) n [] (by omega)]
    simp
  have hd : natDigits m = natDigits n := by
    rw [← hm, ← hn, hdata]
  have he := congrArg evalDigits hd
  rwa [evalDigits_natDigits, evalDigits_natDigits] at he

/-- Asset identifier for a selected frame: `image_<lottieIndex>`
(source: `const assetId = image_(frameData.lottieIndex)` via template
string). -/
def assetId (i : ℕ) : String :=
  "image_" ++ Nat.repr i

lemma assetId_injective : Function.Injective assetId := by
  intro i j h
  have h2 : "image_".data ++ (Nat.repr i).data
      = "image_".data ++ (Nat.repr j).data := by
    have h3 := congrArg String.data h
    simpa [assetId] using h3
  exact reprNat_injective (String.ext (List.append_cancel_left h2))

/-- The constant per-layer transform `ks`: full opacity, no rotation,
centered position and anchor, 100% scale. -/
structure Transform where
  o : ℕ
  r : ℕ
  p : ℚ × ℚ
  a : ℚ × ℚ
  s : ℕ
deriving DecidableEq, Repr

/-- One entry of `lottieData.assets`. -/
structure Asset where
  id : String
  w : ℤ
  h : ℤ
  u : String
  p : String
  e : ℕ
deriving DecidableEq, Repr

/-- One entry of `lottieData.layers`. -/
structure Layer where
  ddd : ℕ
  ind : ℕ
  ty : ℕ
  nm : String
  refId : String
  sr : ℕ
  ks : Transform
  ao : ℕ
  ip : ℕ
  op : ℕ
  st : ℕ
  bm : ℕ
deriving DecidableEq, Repr

/-- The assembled `lottieData` document. -/
structure LottieDocument where
  v : String
  fr : ℚ
  ip : ℕ
  op : ℕ
  w : ℤ
  h : ℤ
  nm : String
  ddd : ℕ
  assets : List Asset
  layers : List Layer
deriving DecidableEq, Repr

/-- One asset entry as pushed by the loop over `selectedFrames`:
embedded mode stores a `data:<mime>;base64,<payload>` URI with `e = 1`,
external mode stores the provider-supplied file reference with `e = 0`. -/
def mkAsset (w h : ℤ) (embedded : Bool) (mime : String) (i : ℕ)
    (payload : String) : Asset :=
  if embedded then
    { id := assetId i, w := w, h := h, u := "",
      p := "data:" ++ mime ++ ";base64," ++ payload, e := 1 }
  else
    { id := assetId i, w := w, h := h, u := "", p := payload, e := 0 }

/-- The asset loop (lines 362–434): for each selected frame, in order, the
asset provider (the sharp crop/encode call or the file read of §6, keyed by
the frame's original index) is invoked once; a failure propagates
immediately (the enclosing async function has no try/catch) and no further
frames are processed. -/
def buildAssets (provider : ℕ → Except String String) (w h : ℤ)
    (embedded : Bool) (mime : String) :
    List SelectedFrame → Except String (List Asset)
  | [] => Except.ok []
  | f :: rest =>
    match provider f.originalIndex with
    | Except.error e => Except.error e
    | Except.ok payload =>
      match buildAssets provider w h embedded mime rest with
      | Except.error e => Except.error e
      | Except.ok assets =>
        Except.ok (mkAsset w h embedded mime f.lottieIndex payload :: assets)

/-- Trace of provider invocations made by the asset loop: one call per
frame, in order, stopping right after the first failing call. -/
def buildAssetsCalls (provider : ℕ → Except String String) :
    List SelectedFrame → List ℕ
  | [] => []
  | f :: rest =>
    match provider f.originalIndex with
    | Except.error _ => [f.originalIndex]
    | Except.ok _ => f.originalIndex :: buildAssetsCalls provider rest

/-- One layer as pushed by `selectedFrames.forEach((frameData, lottieIndex)
=> ...)` (lines 437–463). -/
def mkLayer (w h : ℤ) (idx : ℕ) (f : SelectedFrame) : Layer :=
  { ddd := 0, ind := idx + 1, ty := 2,
    nm := "Frame " ++ Nat.repr (f.originalIndex + 1),
    refId := assetId idx, sr := 1,
    ks := { o := 100, r := 0, p := ((w : ℚ) / 2, (h : ℚ) / 2),
            a := ((w : ℚ) / 2, (h : ℚ) / 2), s := 100 },
    ao := 0, ip := idx, op := idx + 1, st := 0, bm := 0 }

/-- The layer loop: one layer per selected frame, indexed positionally. -/
def buildLayers (w h : ℤ) (frames : List SelectedFrame) : List Layer :=
  frames.enum.map (fun x => mkLayer w h x.1 x.2)

/-- Document assembly (lines 347–468): the `lottieData` literal with
`ip = 0`, `op = selectedFrames.length`, plus the asset and layer loops; a
failing asset build aborts the run before the document is written. -/
def assembleDocument (provider : ℕ → Except String String) (fr : ℚ)
    (w h : ℤ) (embedded : Bool) (mime : String)
    (frames : List SelectedFrame) : Except String LottieDocument :=
  match buildAssets provider w h embedded mime frames with
  | Except.error e => Except.error e
  | Except.ok assets =>
    Except.ok { v := "5.7.4", fr := fr, ip := 0, op := frames.length,
                w := w, h := h, nm := "Frame Animation", ddd := 0,
                assets := assets, layers := buildLayers w h frames }

lemma mkAsset_id (w h : ℤ) (em : Bool) (mime : String) (i : ℕ)
    (payload : String) : (mkAsset w h em mime i payload).id = assetId i := by
  cases em <;> rfl

lemma buildAssets_ok (provider : ℕ → Except String String) (w h : ℤ)
    (em : Bool) (mime : String) :
    ∀ frames : List SelectedFrame,
      (∀ f ∈ frames, ∃ s, provider f.originalIndex = Except.ok s) →
      ∃ assets, buildAssets provider w h em mime frames = Except.ok assets
        ∧ assets.length = frames.length
        ∧ assets.map Asset.id = frames.map (fun f => assetId f.lottieIndex) := by
  intro frames
  induction frames with
  | nil =>
    intro hp
    exact ⟨[], rfl, rfl, rfl⟩
  | cons f rest ih =>
    intro hp
    obtain ⟨s, hs⟩ := hp f (List.mem_cons_self f rest)
    obtain ⟨assets, ha, hlen, hmap⟩ :=
      ih (fun g hg => hp g (List.mem_cons_of_mem f hg))
    refine ⟨mkAsset w h em mime f.lottieIndex s :: assets, ?_, ?_, ?_⟩
    · simp only [buildAssets, hs, ha]
    · simp [hlen]
    · simp [hmap, mkAsset_id]

lemma buildAssetsCalls_ok (provider : ℕ → Except String String) :
    ∀ frames : List SelectedFrame,
      (∀ f ∈ frames, ∃ s, provider f.originalIndex = Except.ok s) →
      buildAssetsCalls provider frames
        = frames.map SelectedFrame.originalIndex := by
  intro frames
  induction frames with
  | nil =>
    intro hp
    rfl
  | cons f rest ih =>
    intro hp
    obtain ⟨s, hs⟩ := hp f (List.mem_cons_self f rest)
    simp only [buildAssetsCalls, hs, List.map_cons,
      ih (fun g hg => hp g (List.mem_cons_of_mem f hg))]

lemma buildAssets_error (provider : ℕ → Except String String) (w h : ℤ)
    (em : Bool) (mime : String) :
    ∀ (pre : List SelectedFrame) (f : SelectedFrame)
      (post : List SelectedFrame) (e : String),
      (∀ g ∈ pre, ∃ s, provider g.originalIndex = Except.ok s) →
      provider f.originalIndex = Except.error e →
      buildAssets provider w h em mime (pre ++ f :: post) = Except.error e
      ∧ buildAssetsCalls provider (pre ++ f :: post)
          = pre.map SelectedFrame.originalIndex ++ [f.originalIndex] := by
  intro pre
  induction pre with
  | nil =>
    intro f post e hpre hf
    constructor
    · simp only [List.nil_append, buildAssets, hf]
    · simp only [List.nil_append, buildAssetsCalls, hf, List.map_nil]
  | cons g rest ih =>
    intro f post e hpre hf
    obtain ⟨s, hs⟩ := hpre g (List.mem_cons_self g rest)
    obtain ⟨h1, h2⟩ :=
      ih f post e (fun g' hg' => hpre g' (List.mem_cons_of_mem g hg')) hf
    constructor
    · have hstep : buildAssets provider w h em mime ((g :: rest) ++ f :: post)
          = match provider g.originalIndex with
            | Except.error e2 => Except.error e2
            | Except.ok payload =>
              match buildAssets provider w h em mime (rest ++ f :: post) with
              | Except.error e2 => Except.error e2
              | Except.ok assets =>
                Except.ok (mkAsset w h em mime g.lottieIndex payload :: assets) :=
        rfl
      rw [hstep, hs, h1]
    · have hstep : buildAssetsCalls provider ((g :: rest) ++ f :: post)
          = match provider g.originalIndex with
            | Except.error _ => [g.originalIndex]
            | Except.ok _ =>
              g.originalIndex :: buildAssetsCalls provider (rest ++ f :: post) :=
        rfl
      rw [hstep, hs, h2]
      simp

lemma buildLayers_getElem? (w h : ℤ) (frames : List SelectedFrame) (i : ℕ) :
    (buildLayers w h frames)[i]? = (frames[i]?).map (mkLayer w h i) := by
  rw [buildLayers, List.getElem?_map, List.getElem?_enum]
  cases frames[i]? <;> rfl

/-- C7: for every document assembled from a selection (output indices
`0, 1, ...` in order) with all provider calls succeeding, the assets and
layers each have exactly one entry per selected frame, the out point is the
frame count, and the `i`-th layer has in point `i`, out point `i + 1`,
1-based index `i + 1`, and a `refId` of `image_i` matching exactly one
asset id. -/
theorem document_consistency (provider : ℕ → Except String String) (fr : ℚ)
    (w h : ℤ) (em : Bool) (mime : String) (frames : List SelectedFrame)
    (hidx : frames.map SelectedFrame.lottieIndex = List.range frames.length)
    (hok : ∀ f ∈ frames, ∃ s, provider f.originalIndex = Except.ok s) :
    ∃ doc, assembleDocument provider fr w h em mime frames = Except.ok doc
      ∧ doc.assets.length = frames.length
      ∧ doc.layers.length = frames.length
      ∧ doc.op = frames.length
      ∧ doc.ip = 0
      ∧ ∀ i, i < frames.length →
          ∃ L, doc.layers[i]? = some L
            ∧ L.ip = i ∧ L.op = i + 1 ∧ L.ind = i + 1
            ∧ L.refId = assetId i
            ∧ (doc.assets.map Asset.id).count (assetId i) = 1 := by
  obtain ⟨assets, ha, hlen, hmap⟩ := buildAssets_ok provider w h em mime frames hok
  refine ⟨{ v := "5.7.4", fr := fr, ip := 0, op := frames.length, w := w,
            h := h, nm := "Frame Animation", ddd := 0, assets := assets,
            layers := buildLayers w h frames }, ?_, hlen, ?_, rfl, rfl, ?_⟩
  · rw [assembleDocument, ha]
  · show (buildLayers w h frames).length = frames.length
    rw [buildLayers, List.length_map, List.enum_length]
  · intro i hi
    have hmap2 : assets.map Asset.id = (List.range frames.length).map assetId := by
      have hcomp : List.map (fun f => assetId f.lottieIndex) frames
          = List.map assetId (List.map SelectedFrame.lottieIndex frames) := by
        rw [List.map_map]
        rfl
      rw [hmap, hcomp, hidx]
    refine ⟨mkLayer w h i (frames.get ⟨i, hi⟩), ?_, rfl, rfl, rfl, rfl, ?_⟩
    · show (buildLayers w h frames)[i]? = _
      rw [buildLayers_getElem?, List.getElem?_eq_getElem hi]
      rfl
    · show (assets.map Asset.id).count (assetId i) = 1
      rw [hmap2,
        List.count_map_of_injective (List.range frames.length) assetId
          assetId_injective i,
        List.count_eq_one_of_mem (List.nodup_range _) (List.mem_range.mpr hi)]

/-- C7 witness: two selected frames (original indices 0 and 2), all
provider calls succeeding. -/
theorem document_consistency_witness :
    ∃ doc, assembleDocument (fun _ => Except.ok "d") 15 200 267 true
        "image/webp" [⟨0, 0⟩, ⟨2, 1⟩] = Except.ok doc
      ∧ doc.assets.length = 2 ∧ doc.layers.length = 2 ∧ doc.op = 2 := by
  obtain ⟨doc, h1, h2, h3, h4, -, -⟩ :=
    document_consistency (fun _ => Except.ok "d") 15 200 267 true "image/webp"
      [⟨0, 0⟩, ⟨2, 1⟩] (by decide) (fun f hf => ⟨"d", rfl⟩)
  exact ⟨doc, h1, h2, h3, h4⟩

/-- C8 counterexample: the surfaced assembly error does not carry the
failing frame's `originalIndex`.  A provider failing at the first frame
(original index 0) and a provider failing at the third frame (original
index 4) surface the identical error value `error "boom"`, so no
`AssetEncodingFailed(originalIndex)` information is attached — the raw
provider error is propagated unchanged. -/
theorem assembler_error_not_indexed :
    buildAssets (fun _ => Except.error "boom") 200 267 true "image/webp"
        [⟨0, 0⟩, ⟨2, 1⟩, ⟨4, 2⟩]
      = Except.error "boom"
    ∧ buildAssets
        (fun i => if i < 4 then Except.ok "payload" else Except.error "boom")
        200 267 true "image/webp" [⟨0, 0⟩, ⟨2, 1⟩, ⟨4, 2⟩]
      = Except.error "boom" := by
  constructor
  · rfl
  · rfl

/-- C8 amended: the assembler calls the asset provider once per selected
frame in order with no retries; the first failing call aborts the run
immediately — frames before it were invoked exactly once, the failing frame
exactly once, later frames not at all — and the run surfaces the provider's
raw error unchanged (no `AssetEncodingFailed` wrapper and no attached
`originalIndex`), producing no document. -/
theorem assembler_abort (provider : ℕ → Except String String) (fr : ℚ)
    (w h : ℤ) (em : Bool) (mime : String)
    (pre : List SelectedFrame) (f : SelectedFrame)
    (post : List SelectedFrame) (e : String)
    (hpre : ∀ g ∈ pre, ∃ s, provider g.originalIndex = Except.ok s)
    (hf : provider f.originalIndex = Except.error e) :
    buildAssets provider w h em mime (pre ++ f :: post) = Except.error e
    ∧ buildAssetsCalls provider (pre ++ f :: post)
        = pre.map SelectedFrame.originalIndex ++ [f.originalIndex]
    ∧ assembleDocument provider fr w h em mime (pre ++ f :: post)
        = Except.error e := by
  obtain ⟨h1, h2⟩ := buildAssets_error provider w h em mime pre f post e hpre hf
  refine ⟨h1, h2, ?_⟩
  rw [assembleDocument, h1]

/-- C8 witness: provider succeeding on original index 0 and failing on
original index 2; the run aborts with the raw error after exactly one call
per processed frame. -/
theorem assembler_abort_witness :
    buildAssets (fun i => if i = 0 then Except.ok "payload" else Except.error "boom")
        200 267 true "image/webp" ([⟨0, 0⟩] ++ (⟨2, 1⟩ : SelectedFrame) :: [])
      = Except.error "boom"
    ∧ buildAssetsCalls
        (fun i => if i = 0 then Except.ok "payload" else Except.error "boom")
        ([⟨0, 0⟩] ++ (⟨2, 1⟩ : SelectedFrame) :: [])
      = [0, 2]
    ∧ assembleDocument
        (fun i => if i = 0 then Except.ok "payload" else Except.error "boom")
        15 200 267 true "image/webp" ([⟨0, 0⟩] ++ (⟨2, 1⟩ : SelectedFrame) :: [])
      = Except.error "boom" :=
  assembler_abort
    (fun i => if i = 0 then Except.ok "payload" else Except.error "boom")
    15 200 267 true "image/webp" [⟨0, 0⟩] ⟨2, 1⟩ [] "boom"
    (by
      intro g hg
      simp only [List.mem_singleton] at hg
      subst hg
      exact ⟨"payload", rfl⟩)
    rfl

end Camelottie
